import Mathlib

set_option maxHeartbeats 1000000

/- Verification of the CIPRES data-parsing scripts.

   Shallow embedding of two Python programs:
     * cipres_data_parse.py : per-format extractors for BEAST, BEAST2,
       Migrate (parmfile and infile), GARLI and MrBayes configuration files;
     * post_garli.py        : the GARLI best-tree score ranking tool.

   A text line is a list of characters, a file is a list of lines (the
   Python sources read files with universal newlines, so the line split
   itself carries no information and is abstracted away).  Python values
   that may be either an int or a str at runtime are modelled by `PyVal`;
   Python runtime exceptions (NameError, ValueError, IndexError) are
   modelled by `Except PyErr`.  Python floats produced by float(...) on
   the decimal strings captured here are modelled exactly by rationals.
   The regular expressions in the sources are compiled into explicit
   scanning functions with Python's leftmost/greedy semantics. -/

abbrev Chars := List Char

def chars (s : String) : Chars := s.data

/-- Python \s for the ASCII range (str.strip / str.split / regex \s). -/
def isWs (c : Char) : Bool :=
  c == ' ' || c == '\t' || c == '\n' || c == '\r' || c == '\x0b' || c == '\x0c'

/-- Python str.rstrip() with no argument. -/
def pyRstrip (l : Chars) : Chars := (l.reverse.dropWhile isWs).reverse

/-- Python str.strip() with no argument. -/
def pyStrip (l : Chars) : Chars := ((l.dropWhile isWs).reverse.dropWhile isWs).reverse

def pySplitWsAux : Chars → Chars → List Chars
  | [], acc => if acc.isEmpty then [] else [acc.reverse]
  | c :: rest, acc =>
    if isWs c then
      if acc.isEmpty then pySplitWsAux rest []
      else acc.reverse :: pySplitWsAux rest []
    else pySplitWsAux rest (c :: acc)

/-- Python str.split() with no argument: split on whitespace runs, no empties. -/
def pySplitWs (l : Chars) : List Chars := pySplitWsAux l []

/-- Python str.split(sep) for a one-character separator: keeps empty pieces. -/
def pySplitOn (sep : Char) : Chars → List Chars
  | [] => [[]]
  | c :: rest =>
    if c = sep then [] :: pySplitOn sep rest
    else
      match pySplitOn sep rest with
      | [] => [[c]]
      | p :: ps => (c :: p) :: ps

def startsWith : Chars → Chars → Bool
  | [], _ => true
  | _ :: _, [] => false
  | p :: ps, c :: cs => p == c && startsWith ps cs

/-- Drop the literal `pat` from the front of a list, if it is there. -/
def dropLit : Chars → Chars → Option Chars
  | [], l => some l
  | _ :: _, [] => none
  | p :: ps, c :: cs => if p = c then dropLit ps cs else none

/-- Python s.find(pat) >= 0 : substring containment. -/
def containsSub (pat : Chars) : Chars → Bool
  | [] => startsWith pat []
  | c :: rest => startsWith pat (c :: rest) || containsSub pat rest

/-- Suffix of `l` strictly after the first occurrence of the literal `pat`. -/
def afterFirstLit (pat : Chars) : Chars → Option Chars
  | [] => dropLit pat []
  | c :: rest =>
    match dropLit pat (c :: rest) with
    | some r => some r
    | none => afterFirstLit pat rest

/-- Python str.isdigit() (ASCII): nonempty and all decimal digits. -/
def allDigits (l : Chars) : Bool := !l.isEmpty && l.all Char.isDigit

/-- Value of a nonempty decimal digit string, as int(...) computes it. -/
def charsToNat (l : Chars) : Nat := l.foldl (fun a c => a * 10 + (c.toNat - '0'.toNat)) 0

def natToChars (n : Nat) : Chars := Nat.toDigits 10 n

def intToChars : Int → Chars
  | Int.ofNat n => natToChars n
  | Int.negSucc n => '-' :: natToChars (n + 1)

/-- A Python value that is either an int or a str at runtime. -/
inductive PyVal where
  | int (n : Int)
  | str (s : Chars)
deriving DecidableEq, Repr

/-- Python == between such a value and an int literal: str == int is False. -/
def pyEqInt (v : PyVal) (n : Int) : Bool :=
  match v with
  | PyVal.int m => m = n
  | PyVal.str _ => false

/-- Python str(v) for the values that occur here. -/
def pyStrOfVal : PyVal → Chars
  | PyVal.int n => intToChars n
  | PyVal.str s => s

/-- The Python runtime errors the modelled code can raise. -/
inductive PyErr where
  | nameError
  | valueError
  | indexError
deriving DecidableEq, Repr

/- Matching of `key\s*=\s*(\d+)` at the head of a list: skip whitespace,
   expect '=', skip whitespace, capture the (greedy, nonempty) digit run. -/
def matchEqNum (l : Chars) : Option Chars :=
  match l.dropWhile isWs with
  | '=' :: l2 =>
    let ds := (l2.dropWhile isWs).takeWhile Char.isDigit
    if ds.isEmpty then none else some ds
  | _ => none

/-- All captures of the regex `key\s*=\s*(\d+)`, scanning start positions
left to right exactly as re.search does.  The first element is what an
unanchored search captures; the last element is what a search whose pattern
carries a greedy leading .* captures. -/
def keyEqNumMatches (key : Chars) : Chars → List Chars
  | [] => []
  | c :: rest =>
    match dropLit key (c :: rest) with
    | some r =>
      match matchEqNum r with
      | some ds => ds :: keyEqNumMatches key rest
      | none => keyEqNumMatches key rest
    | none => keyEqNumMatches key rest

/- ------------------------------------------------------------------ -/
/- process_garli (cipres_data_parse.py)                               -/
/- ------------------------------------------------------------------ -/

structure GarliScan where
  bootreps : PyVal
  searchreps : PyVal
  availmem : PyVal
  haveBoot : Bool
  haveSearch : Bool
  haveAvail : Bool
deriving DecidableEq, Repr

def garliInit : GarliScan :=
  ⟨PyVal.int (-1), PyVal.int (-1), PyVal.int (-1), false, false, false⟩

/-- One line of the process_garli scan.  The three captures keep only the
first match over the whole file; regex group(1) values are Python strings. -/
def garliStep (st : GarliScan) (line0 : Chars) : GarliScan :=
  let line := pyStrip line0
  let st1 :=
    if st.haveBoot then st else
      match (keyEqNumMatches (chars "bootstrapreps") line).head? with
      | some ds => { st with bootreps := PyVal.str ds, haveBoot := true }
      | none => st
  let st2 :=
    if st1.haveSearch then st1 else
      match (keyEqNumMatches (chars "searchreps") line).head? with
      | some ds => { st1 with searchreps := PyVal.str ds, haveSearch := true }
      | none => st1
  if st2.haveAvail then st2 else
    match (keyEqNumMatches (chars "availablememory") line).getLast? with
    | some ds => { st2 with availmem := PyVal.str ds, haveAvail := true }
    | none => st2

structure GarliResult where
  errCode : Nat
  nruns : PyVal
  bootreps : PyVal
  searchreps : PyVal
  availmem : PyVal
deriving DecidableEq, Repr

/-- process_garli.  Note that the source compares the captured string
bootreps against the int 0 with Python ==, which is always False. -/
def processGarli (lines : List Chars) : GarliResult :=
  let st := lines.foldl garliStep garliInit
  if st.haveBoot = false ∨ st.haveSearch = false ∨ st.haveAvail = false then
    ⟨1, PyVal.int (-1), st.bootreps, st.searchreps, st.availmem⟩
  else if pyEqInt st.bootreps 0 then
    ⟨0, st.searchreps, st.bootreps, PyVal.int 1, st.availmem⟩
  else
    ⟨0, st.bootreps, PyVal.int 1, st.searchreps, st.availmem⟩

/- ------------------------------------------------------------------ -/
/- process_migrate_parm (cipres_data_parse.py)                        -/
/- ------------------------------------------------------------------ -/

/-- First line (rstripped) that contains the literal replicate=YES. -/
def migrateParmFind : List Chars → Option Chars
  | [] => none
  | l :: rest =>
    let l' := pyRstrip l
    if containsSub (chars "replicate=YES") l' then some l' else migrateParmFind rest

/-- process_migrate_parm.  `p1, num_reps = line.split(':')` unpacks into
exactly two names, so a matching line whose colon count differs from one
raises ValueError. -/
def processMigrateParm (lines : List Chars) : Except PyErr (Nat × PyVal) :=
  match migrateParmFind lines with
  | none =>
    Except.ok (if allDigits (pyStrOfVal (PyVal.int 1)) then 0 else 1, PyVal.int 1)
  | some l =>
    match pySplitOn ':' l with
    | [_, reps] =>
      Except.ok (if allDigits (pyStrOfVal (PyVal.str reps)) then 0 else 1, PyVal.str reps)
    | _ => Except.error PyErr.valueError

/- ------------------------------------------------------------------ -/
/- process_migrate_infile (cipres_data_parse.py)                      -/
/- ------------------------------------------------------------------ -/

/-- process_migrate_infile: the loop body runs for the very first line and
breaks; `pline[1]` raises IndexError when the first line has at most one
whitespace-delimited field. -/
def processMigrateInfile (lines : List Chars) : Except PyErr (Nat × PyVal) :=
  match lines with
  | [] => Except.ok (if allDigits (pyStrOfVal (PyVal.int 1)) then 0 else 1, PyVal.int 1)
  | l :: _ =>
    match (pySplitWs (pyStrip l))[1]? with
    | none => Except.error PyErr.indexError
    | some f =>
      Except.ok (if allDigits (pyStrOfVal (PyVal.str f)) then 0 else 1, PyVal.str f)

/- ------------------------------------------------------------------ -/
/- process_beast2 (cipres_data_parse.py)                              -/
/- ------------------------------------------------------------------ -/

structure Beast2State where
  started : Bool
  parts : Nat
deriving DecidableEq, Repr

def beast2Step (st : Beast2State) (line0 : Chars) : Beast2State :=
  let line := pyRstrip line0
  if containsSub (chars "<distribution id=\"likelihood\"") line then
    { st with started := true }
  else if st.started && containsSub (chars "<distribution") line &&
      !containsSub (chars "/>") line then
    { st with parts := st.parts + 1 }
  else st

/-- process_beast2: (err_code, nu_partitions). -/
def processBeast2 (lines : List Chars) : Nat × Nat :=
  let st := lines.foldl beast2Step ⟨false, 0⟩
  (if st.parts = 0 then 1 else 0, st.parts)

/- ------------------------------------------------------------------ -/
/- process_beast (cipres_data_parse.py)                               -/
/- ------------------------------------------------------------------ -/

/-- Match `data[tT]ype\s*=\s*"` at the head of a list, returning the
suffix right after the quote. -/
def matchDataTypeAt (l : Chars) : Option Chars :=
  let tryTail (rest : Chars) : Option Chars :=
    match rest.dropWhile isWs with
    | '=' :: r2 =>
      match r2.dropWhile isWs with
      | '"' :: r4 => some r4
      | _ => none
    | _ => none
  match dropLit (chars "datatype") l with
  | some rest => tryTail rest
  | none =>
    match dropLit (chars "dataType") l with
    | some rest => tryTail rest
    | none => none

/-- Suffix after the last occurrence of `data[tT]ype\s*=\s*"` in `l`. -/
def afterLastDataType : Chars → Option Chars
  | [] => none
  | c :: rest =>
    match afterLastDataType rest with
    | some r => some r
    | none => matchDataTypeAt (c :: rest)

/-- The rewriting the dataType branch of process_beast performs on a line:
re.sub('.*alignment.*data[tT]ype\s*=\s*"', '', line) followed by
re.sub('".*', '', line).  The greedy leading .* makes the first sub keep
the suffix after the last data[tT]ype= match that follows some occurrence
of "alignment".  Returns (rewritten line, datatype value with whitespace
removed as re.sub('\s*','',..) does); none when the search fails. -/
def beastDatatypeValue (l : Chars) : Option (Chars × Chars) :=
  match afterFirstLit (chars "alignment") l with
  | none => none
  | some tail =>
    match afterLastDataType tail with
    | none => none
    | some r =>
      let r2 := r.takeWhile (fun c => !(c == '"'))
      some (r2, r2.filter (fun c => !isWs c))

/-- Match `npatterns\s*=\s*` (with the trailing \s* greedy) at the head of
a list, returning the suffix after it. -/
def matchNpatternsAt (l : Chars) : Option Chars :=
  match dropLit (chars "npatterns") l with
  | none => none
  | some r =>
    match r.dropWhile isWs with
    | '=' :: r2 => some (r2.dropWhile isWs)
    | _ => none

/-- Suffix after the last occurrence of `npatterns\s*=\s*`, which is what
re.sub('.*npatterns\s*=\s*', '', line) keeps (leading greedy .*). -/
def afterLastNpatterns : Chars → Option Chars
  | [] => none
  | c :: rest =>
    match afterLastNpatterns rest with
    | some r => some r
    | none => matchNpatternsAt (c :: rest)

structure BeastState where
  datatype : Chars
  codon : Bool
  nuPartitions : Nat
  patternCount : Nat
deriving DecidableEq, Repr

/-- The codon check of process_beast, applied to the line as rebound by the
earlier branches of the loop body. -/
def beastCodon (st : BeastState) (line : Chars) : Except PyErr BeastState :=
  Except.ok (if containsSub (chars "codon") line then { st with codon := true } else st)

/-- The npatterns branch of process_beast: on a matching line the prefix is
stripped, re.sub('\D.*','') keeps the leading digit run, and int(...) of an
empty string raises ValueError. -/
def beastNpat (st : BeastState) (line : Chars) : Except PyErr BeastState :=
  match afterLastNpatterns line with
  | some r =>
    let ds := r.takeWhile Char.isDigit
    if ds.isEmpty then Except.error PyErr.valueError
    else
      beastCodon
        { st with patternCount := st.patternCount + charsToNat ds,
                  nuPartitions := st.nuPartitions + 1 } ds
  | none => beastCodon st line

/-- One line of the process_beast loop.  The dataType branch reassigns the
loop variable `line`, so the npatterns and codon checks run on the
rewritten line. -/
def beastStep (st : BeastState) (line0 : Chars) : Except PyErr BeastState :=
  match beastDatatypeValue (pyRstrip line0) with
  | some p => beastNpat { st with datatype := p.2 } p.1
  | none => beastNpat st (pyRstrip line0)

structure BeastResult where
  errCode : Nat
  datatype : Chars
  codon : Bool
  nuPartitions : Nat
  patternCount : Nat
deriving DecidableEq, Repr

def processBeast (lines : List Chars) : Except PyErr BeastResult :=
  match lines.foldlM beastStep ⟨chars "unknown", false, 0, 0⟩ with
  | Except.error e => Except.error e
  | Except.ok st =>
    let e1 : Nat :=
      if st.datatype ≠ chars "aminoacid" ∧ st.datatype ≠ chars "nucleotide" then 1 else 0
    let e2 : Nat := if st.nuPartitions = 0 ∨ st.patternCount = 0 then 1 else e1
    Except.ok ⟨e2, st.datatype, st.codon, st.nuPartitions, st.patternCount⟩

/- ------------------------------------------------------------------ -/
/- process_bayes (cipres_data_parse.py)                               -/
/- ------------------------------------------------------------------ -/

/-- The control-line regex `^(mcmc|mcmcp)\s`: "mcmc" or "mcmcp" at the very
start, followed by one whitespace character. -/
def isMcmcLine : Chars → Bool
  | 'm' :: 'c' :: 'm' :: 'c' :: c :: rest =>
    if isWs c then true
    else if c = 'p' then
      match rest with
      | d :: _ => isWs d
      | [] => false
    else false
  | _ => false

/-- First line (stripped) matched by the control-line regex. -/
def bayesFindCtl : List Chars → Option Chars
  | [] => none
  | l :: rest =>
    let l' := pyStrip l
    if isMcmcLine l' then some l' else bayesFindCtl rest

structure BayesResult where
  errCode : Nat
  nruns : PyVal
  nchains : PyVal
deriving DecidableEq, Repr

/-- process_bayes: only the first control line is processed; the patterns
`.*nruns\s*=\s*(\d+).*` and `.*nchains\s*=\s*(\d+).*` capture at the last
occurrence (greedy leading .*), with int defaults 2 and 4 when absent. -/
def processBayes (lines : List Chars) : BayesResult :=
  match bayesFindCtl lines with
  | none => ⟨1, PyVal.int (-1), PyVal.int (-1)⟩
  | some l =>
    let nruns :=
      match (keyEqNumMatches (chars "nruns") l).getLast? with
      | some ds => PyVal.str ds
      | none => PyVal.int 2
    let nchains :=
      match (keyEqNumMatches (chars "nchains") l).getLast? with
      | some ds => PyVal.str ds
      | none => PyVal.int 4
    ⟨if pyEqInt nruns (-1) || pyEqInt nchains (-1) then 1 else 0, nruns, nchains⟩

/- ------------------------------------------------------------------ -/
/- post_garli.py                                                      -/
/- ------------------------------------------------------------------ -/

/-- Match of `GarliScore\s([-?]\d+[\.\d]+)` at the head of a list: the
literal, exactly one whitespace character, one character from the class
[-?] (a literal hyphen or question mark), a digit, then a greedy nonempty
run of digits and dots.  Returns the captured group. -/
def garliScoreAt (l : Chars) : Option Chars :=
  match dropLit (chars "GarliScore") l with
  | none => none
  | some r =>
    match r with
    | w :: s :: d :: r4 =>
      if isWs w && (s == '-' || s == '?') && Char.isDigit d then
        let tail := r4.takeWhile (fun c => Char.isDigit c || c == '.')
        if tail.isEmpty then none else some (s :: d :: tail)
      else none
    | _ => none

/-- Leftmost search of the score pattern over a whole line. -/
def garliScoreCapture : Chars → Option Chars
  | [] => none
  | c :: rest =>
    match garliScoreAt (c :: rest) with
    | some cap => some cap
    | none => garliScoreCapture rest

/-- Python float(...) on the strings the score pattern can capture:
an optional minus sign, an integer part, and at most one dot.  Returns
none exactly when float(...) raises ValueError. -/
def pyFloatUnsigned (l : Chars) : Option ℚ :=
  let ip := l.takeWhile Char.isDigit
  if ip.isEmpty then none
  else
    match l.drop ip.length with
    | [] => some (mkRat (charsToNat ip) 1)
    | '.' :: fp =>
      if fp.all Char.isDigit then
        some (mkRat (charsToNat ip * 10 ^ fp.length + charsToNat fp) (10 ^ fp.length))
      else none
    | _ => none

def pyFloatOfChars (l : Chars) : Option ℚ :=
  match l with
  | '-' :: rest => (pyFloatUnsigned rest).map Neg.neg
  | _ => pyFloatUnsigned l

/-- collect_score of post_garli.py: the captured score, or 0 when the
pattern does not match; float(...) can raise ValueError. -/
def collect_score (line : Chars) : Except PyErr ℚ :=
  match garliScoreCapture line with
  | some cap =>
    match pyFloatOfChars cap with
    | some q => Except.ok q
    | none => Except.error PyErr.valueError
  | none => Except.ok 0

/-- Python dict assignment d[k] = v: overwrite in place, else append. -/
def dictInsert (k : ℚ) (v : String) : List (ℚ × String) → List (ℚ × String)
  | [] => [(k, v)]
  | (k', v') :: rest =>
    if k' = k then (k', v) :: rest else (k', v') :: dictInsert k v rest

/-- Python d[k] lookup (keys present by construction where used). -/
def dictLookup (k : ℚ) : List (ℚ × String) → String
  | [] => ""
  | (k', v) :: rest => if k' = k then v else dictLookup k rest

/-- Insert into a descending list, as Python sorted(..., reverse=True)
orders keys. -/
def insertDesc (x : ℚ) : List ℚ → List ℚ
  | [] => [x]
  | y :: ys => if y < x then x :: y :: ys else y :: insertDesc x ys

def sortDesc (l : List ℚ) : List ℚ := l.foldr insertDesc []

/-- make_out_file of post_garli.py, abstracting the text file into the
ordered list of (score, filename) pairs it writes after the header. -/
def makeOutFile (d : List (ℚ × String)) : List (ℚ × String) :=
  (sortDesc (d.map Prod.fst)).map (fun k => (k, dictLookup k d))

/-- State of the post_garli.py main loop.  `score = none` models the name
`score` not being bound yet; reading it then raises NameError. -/
structure PGState where
  firstFile : Bool
  n : Nat
  score : Option ℚ
  errorCode : Nat
  problemFiles : List String
  scoreDict : List (ℚ × String)
deriving DecidableEq, Repr

def pgInit : PGState := ⟨true, 0, none, 0, [], []⟩

/-- First-file scan: count lines (continuing from the running total `n`)
until one whose rstrip contains "GarliScore"; return the new count and
that rstripped line if found. -/
def scanFirst (n : Nat) : List Chars → Nat × Option Chars
  | [] => (n, none)
  | l :: rest =>
    let l' := pyRstrip l
    if containsSub (chars "GarliScore") l' then (n, some l')
    else scanFirst (n + 1) rest

/-- The with-block of the main loop for one file: either the first-file
line counting scan, or the jump to the cached line offset. -/
def pgScan (st : PGState) (lines : List Chars) : Except PyErr PGState :=
  if st.firstFile then
    match scanFirst st.n lines with
    | (n', none) => Except.ok { st with n := n' }
    | (n', some l) =>
      match collect_score l with
      | Except.ok q => Except.ok { st with n := n', firstFile := false, score := some q }
      | Except.error e => Except.error e
  else
    match lines[st.n]? with
    | none => Except.ok st
    | some l =>
      match collect_score (pyRstrip l) with
      | Except.ok q => Except.ok { st with score := some q }
      | Except.error e => Except.error e

/-- The classification after the with-block: `if score == 0` raises
NameError when `score` was never assigned; a zero score marks the file as
a problem, otherwise the (score, filename) pair is stored in the dict. -/
def pgClassify (name : String) (st : PGState) : Except PyErr PGState :=
  match st.score with
  | none => Except.error PyErr.nameError
  | some q =>
    if q = 0 then
      Except.ok { st with errorCode := 1, problemFiles := st.problemFiles ++ [name] }
    else
      Except.ok { st with scoreDict := dictInsert q name st.scoreDict }

def pgFileStep (st : PGState) (f : String × List Chars) : Except PyErr PGState :=
  match pgScan st f.2 with
  | Except.ok st' => pgClassify f.1 st'
  | Except.error e => Except.error e

/-- The whole main loop of post_garli.py over the directory's best-tree
files (each given as filename and contents). -/
def runPostGarli (files : List (String × List Chars)) : Except PyErr PGState :=
  files.foldlM pgFileStep pgInit

/-- The final branch of post_garli.py: with a nonzero error code no output
file is written (problem files are reported instead); otherwise the report
of makeOutFile is written. -/
def garliReport (st : PGState) : Option (List (ℚ × String)) :=
  if st.errorCode = 1 then none else some (makeOutFile st.scoreDict)

/- ------------------------------------------------------------------ -/
/- Derived views used in the statements below                         -/
/- ------------------------------------------------------------------ -/

/-- The integer value the npatterns branch of process_beast extracts from
a line, when the line matches and the parse succeeds. -/
def npatternsValue (l : Chars) : Option Nat :=
  match afterLastNpatterns (pyRstrip l) with
  | some r =>
    let ds := r.takeWhile Char.isDigit
    if ds.isEmpty then none else some (charsToNat ds)
  | none => none

/-- A line containing the BEAST2 likelihood marker (after rstrip). -/
def likeLine (l : Chars) : Bool :=
  containsSub (chars "<distribution id=\"likelihood\"") (pyRstrip l)

/-- A line process_beast2 counts while counting is on: it contains
an opening distribution tag and no self-closing marker (after rstrip). -/
def distLine (l : Chars) : Bool :=
  containsSub (chars "<distribution") (pyRstrip l) &&
    !containsSub (chars "/>") (pyRstrip l)

/-- Three best-tree files with GarliScore lines at the same offset,
carrying the scores 12.3, 45.6 and -7.8. -/
def c3Files : List (String × List Chars) :=
  [("t1.best.tre", [chars "#NEXUS", chars "GarliScore 12.3"]),
   ("t2.best.tre", [chars "#NEXUS", chars "GarliScore 45.6"]),
   ("t3.best.tre", [chars "#NEXUS", chars "GarliScore -7.8"])]

/-- Two best-tree files whose scores both extract successfully. -/
def c9Files : List (String × List Chars) :=
  [("a.best.tre", [chars "x", chars "GarliScore -12.0"]),
   ("b.best.tre", [chars "y", chars "GarliScore -3.0"])]

/-- The main-loop state after processing c9Files. -/
def c9State : PGState :=
  ⟨false, 1, some (-3), 0, [], [((-12 : ℚ), "a.best.tre"), ((-3 : ℚ), "b.best.tre")]⟩

/- ------------------------------------------------------------------ -/
/- Helper lemmas                                                      -/
/- ------------------------------------------------------------------ -/

theorem migrateParmFind_append {pre : List Chars} {l : Chars} (post : List Chars)
    (hpre : ∀ m ∈ pre, containsSub (chars "replicate=YES") (pyRstrip m) = false)
    (hl : containsSub (chars "replicate=YES") (pyRstrip l) = true) :
    migrateParmFind (pre ++ l :: post) = some (pyRstrip l) := by
  induction pre with
  | nil => simp [migrateParmFind, hl]
  | cons m rest ih =>
    have hm := hpre m (List.mem_cons_self m rest)
    simpa [migrateParmFind, hm] using
      ih (fun x hx => hpre x (List.mem_cons_of_mem _ hx))

theorem migrateParmFind_none {lines : List Chars}
    (h : ∀ m ∈ lines, containsSub (chars "replicate=YES") (pyRstrip m) = false) :
    migrateParmFind lines = none := by
  induction lines with
  | nil => rfl
  | cons m rest ih =>
    have hm := h m (List.mem_cons_self m rest)
    simpa [migrateParmFind, hm] using
      ih (fun x hx => h x (List.mem_cons_of_mem _ hx))

/- ------------------------------------------------------------------ -/
/- Claims                                                             -/
/- ------------------------------------------------------------------ -/

/-- Claim C1.  The claim says that with bootstrapreps=0, searchreps=5 and
availablememory=1024 all present, process_garli returns number-of-runs 5
(taken from searchreps) and search-reps reset to 1.  The source's own
docstring states the same.  The code, however, compares the captured
string "0" against the int 0 with Python ==, which is False, so the
zero-bootstrapreps branch is unreachable: the run actually returns
nruns = "0" (the bootstrapreps string), bootstrapreps = 1, and
searchreps = "5" untouched.  This theorem evaluates the embedding at the
failing input. -/
theorem c1_garli_zero_bootstrapreps :
    processGarli [chars "bootstrapreps = 0", chars "searchreps = 5",
        chars "availablememory = 1024"] =
      ⟨0, PyVal.str (chars "0"), PyVal.int 1, PyVal.str (chars "5"),
        PyVal.str (chars "1024")⟩ := rfl

/-- Claim C2.  For a first-processed best-tree file with no GarliScore
line, the cached offset does equal the file's total line count (first
conjunct), but the claimed fallback score of 0 never happens: the variable
`score` is never assigned on that path, so `if score == 0` raises
NameError and the run dies instead of recording the file as a problem
(second conjunct). -/
theorem c2_first_file_no_score_nameerror :
    scanFirst 0 [chars "tau 1", chars "end;"] = (2, none) ∧
    runPostGarli [("t1.best.tre", [chars "tau 1", chars "end;"])] =
      Except.error PyErr.nameError := ⟨rfl, rfl⟩

/-- Claim C3, counterexample.  On the three fixture files with scores
12.3, 45.6 and -7.8 at the same line offset, the claimed output file
(all three filenames ranked, zero scores excluded) is not produced at
all: the run ends with no output written. -/
theorem c3_counterexample :
    (runPostGarli c3Files).map garliReport = Except.ok none := rfl


/-- Claim C3, amended.  The character class [-?] in the stated pattern
requires a literal '-' or '?' before the digits, so the scores 12.3 and
45.6 fail to match and extract as 0: those two files are recorded as
problem files, only -7.8 is stored, the error flag is set, and hence no
output file is written (the problem list is reported instead). -/
theorem c3_amended_result :
    ∃ st, runPostGarli c3Files = Except.ok st ∧
      st.problemFiles = ["t1.best.tre", "t2.best.tre"] ∧
      st.scoreDict = [((-(mkRat 78 10) : ℚ), "t3.best.tre")] ∧
      st.errorCode = 1 ∧ garliReport st = none :=
  ⟨⟨false, 1, some (-(mkRat 78 10)), 1, ["t1.best.tre", "t2.best.tre"],
      [((-(mkRat 78 10) : ℚ), "t3.best.tre")]⟩, rfl, rfl, rfl, rfl, rfl⟩

/-- Claim C4, counterexample.  The claim says the matched line is split on
the FIRST colon and everything after it becomes the replicate string (so
a malformed value would only set the error flag).  The code instead
unpacks line.split(':') into exactly two names: on a replicate=YES line
with two colons this raises ValueError instead of returning error flag 1. -/
theorem c4_counterexample :
    processMigrateParm [chars "replicate=YES:10:30"] =
      Except.error PyErr.valueError := rfl

/-- Claim C4, amended.  process_migrate_parm scans until the first line
containing "replicate=YES" and stops there.  That line must contain
exactly one colon: then everything after the colon is the replicate
string and the error flag is 1 exactly when it is not a nonempty run of
decimal digits; any other colon count raises ValueError.  When no such
line exists the replicate count stays at its default of 1 with error
flag 0. -/
theorem c4_amended_thm :
    (∀ pre post l a b,
      (∀ m ∈ pre, containsSub (chars "replicate=YES") (pyRstrip m) = false) →
      containsSub (chars "replicate=YES") (pyRstrip l) = true →
      pySplitOn ':' (pyRstrip l) = [a, b] →
      processMigrateParm (pre ++ l :: post) =
        Except.ok (if allDigits b then 0 else 1, PyVal.str b)) ∧
    (∀ pre post l,
      (∀ m ∈ pre, containsSub (chars "replicate=YES") (pyRstrip m) = false) →
      containsSub (chars "replicate=YES") (pyRstrip l) = true →
      (pySplitOn ':' (pyRstrip l)).length ≠ 2 →
      processMigrateParm (pre ++ l :: post) = Except.error PyErr.valueError) ∧
    (∀ lines,
      (∀ m ∈ lines, containsSub (chars "replicate=YES") (pyRstrip m) = false) →
      processMigrateParm lines = Except.ok (0, PyVal.int 1)) := by
  refine ⟨?_, ?_, ?_⟩
  · intro pre post l a b hpre hl hsp
    simp [processMigrateParm, migrateParmFind_append post hpre hl, hsp, pyStrOfVal]
  · intro pre post l hpre hl hlen
    have hfind := migrateParmFind_append post hpre hl
    rcases hsp : pySplitOn ':' (pyRstrip l) with _ | ⟨a, _ | ⟨b, _ | ⟨c, rest⟩⟩⟩
    · simp [processMigrateParm, hfind, hsp]
    · simp [processMigrateParm, hfind, hsp]
    · exact absurd (by simp [hsp]) hlen
    · simp [processMigrateParm, hfind, hsp]
  · intro lines hlines
    simp [processMigrateParm, migrateParmFind_none hlines]
    rfl

/-- Witness for the amended C4 theorem at a concrete well-formed file. -/
theorem c4_amended_witness :
    processMigrateParm
        ([chars "a header line"] ++ (chars "replicate=YES:10") :: [chars "later line"]) =
      Except.ok (if allDigits (chars "10") then 0 else 1, PyVal.str (chars "10")) :=
  c4_amended_thm.1 [chars "a header line"] [chars "later line"]
    (chars "replicate=YES:10") (chars "replicate=YES") (chars "10")
    (by decide) (by decide) (by decide)

/-- Claim C5, counterexample.  The claim says the extractor reads the
first NON-TRIVIAL line.  The code processes the very first line
unconditionally: on a file whose first line is blank (the second line
being perfectly well formed), `pline[1]` raises IndexError instead of
reading the next line. -/
theorem c5_counterexample :
    processMigrateInfile [chars "", chars "ntax 12"] =
      Except.error PyErr.indexError := rfl

/-- Claim C5, amended.  process_migrate_infile reads only the very first
line, trivial or not: it strips it, splits it on whitespace and takes
the second field as the locus count, with error flag 1 exactly when that
field is not a nonempty run of decimal digits; when the first line has
fewer than two fields the subscript raises IndexError; an empty file
keeps the default of 1 with error flag 0.  All later lines are ignored. -/
theorem c5_amended_thm :
    (∀ l rest f, (pySplitWs (pyStrip l))[1]? = some f →
      processMigrateInfile (l :: rest) =
        Except.ok (if allDigits f then 0 else 1, PyVal.str f)) ∧
    (∀ l rest, (pySplitWs (pyStrip l))[1]? = none →
      processMigrateInfile (l :: rest) = Except.error PyErr.indexError) ∧
    processMigrateInfile [] = Except.ok (0, PyVal.int 1) := by
  refine ⟨?_, ?_, rfl⟩
  · intro l rest f hf
    simp [processMigrateInfile, hf, pyStrOfVal]
  · intro l rest hf
    simp [processMigrateInfile, hf]

/-- Witness for the amended C5 theorem at a concrete well-formed file. -/
theorem c5_amended_witness :
    processMigrateInfile ((chars "  7 19 x") :: [chars "ignored line"]) =
      Except.ok (if allDigits (chars "19") then 0 else 1, PyVal.str (chars "19")) :=
  c5_amended_thm.1 (chars "  7 19 x") [chars "ignored line"] (chars "19") (by decide)

/-- Claim C10.  For a non-first best-tree file whose total line count is at
most the cached offset, the per-file loop body never reaches the score
line, so `score` keeps the value left over from the previously processed
file and the classification (problem list or score dict) uses that stale
value. -/
theorem c10_stale_score (st : PGState) (name : String) (lines : List Chars) (q : ℚ)
    (h1 : st.firstFile = false) (h2 : lines.length ≤ st.n) (h3 : st.score = some q) :
    pgScan st lines = Except.ok st ∧
    (q ≠ 0 → pgFileStep st (name, lines) =
      Except.ok { st with scoreDict := dictInsert q name st.scoreDict }) ∧
    (q = 0 → pgFileStep st (name, lines) =
      Except.ok { st with errorCode := 1, problemFiles := st.problemFiles ++ [name] }) := by
  have hget : lines[st.n]? = none := List.getElem?_eq_none h2
  have hscan : pgScan st lines = Except.ok st := by
    simp [pgScan, h1, hget]
  refine ⟨hscan, ?_, ?_⟩ <;> intro hq <;>
    simp [pgFileStep, hscan, pgClassify, h3, hq]

/-- Witness for C10: a one-line non-first file against a cached offset of
2 records the leftover score 5 under the new file's name. -/
theorem c10_witness :
    pgFileStep ⟨false, 2, some 5, 0, [], []⟩ ("c.best.tre", [chars "only line"]) =
      Except.ok ⟨false, 2, some 5, 0, [], [((5 : ℚ), "c.best.tre")]⟩ := by
  have h := c10_stale_score ⟨false, 2, some 5, 0, [], []⟩ "c.best.tre"
    [chars "only line"] 5 rfl (by decide) rfl
  simpa [dictInsert] using h.2.1 (by norm_num)

theorem beast2Step_false (n : Nat) (l : Chars) (hl : likeLine l = false) :
    beast2Step ⟨false, n⟩ l = ⟨false, n⟩ := by
  simp only [likeLine] at hl
  simp [beast2Step, hl]

theorem beast2Step_true (c : Nat) (l : Chars) :
    beast2Step ⟨true, c⟩ l = ⟨true, c + (if !likeLine l && distLine l then 1 else 0)⟩ := by
  unfold beast2Step likeLine distLine
  cases hA : containsSub (chars "<distribution id=\"likelihood\"") (pyRstrip l)
  · cases hB : containsSub (chars "<distribution") (pyRstrip l)
    · simp [hA, hB]
    · cases hC : containsSub (chars "/>") (pyRstrip l)
      · simp [hA, hB, hC]
      · simp [hA, hB, hC]
  · simp [hA]

theorem beast2_foldl_pre (lines : List Chars) (n : Nat)
    (h : ∀ l ∈ lines, likeLine l = false) :
    lines.foldl beast2Step ⟨false, n⟩ = ⟨false, n⟩ := by
  induction lines with
  | nil => rfl
  | cons l rest ih =>
    rw [List.foldl_cons, beast2Step_false n l (h l (List.mem_cons_self l rest))]
    exact ih (fun x hx => h x (List.mem_cons_of_mem _ hx))

theorem beast2_foldl_post (lines : List Chars) (c : Nat) :
    lines.foldl beast2Step ⟨true, c⟩ =
      ⟨true, c + lines.countP (fun l => !likeLine l && distLine l)⟩ := by
  induction lines generalizing c with
  | nil => simp
  | cons l rest ih =>
    rw [List.foldl_cons, beast2Step_true c l, ih, List.countP_cons]
    cases h : (!likeLine l && distLine l) with
    | false => simp [h]
    | true => simp [h]; omega

/-- Claim C7.  process_beast2 starts counting only once a line containing
the likelihood marker has been seen (such a line is itself skipped and
never counted); afterwards every line containing `<distribution` but not
`/>` is counted; the error flag is 1 exactly when the final count is 0;
and the fixture file with three opening distribution lines and one
self-closing one yields partition count 3. -/
theorem c7_beast2_partitions :
    (∀ pre mid post, (∀ l ∈ pre, likeLine l = false) → likeLine mid = true →
      (∀ l ∈ post, likeLine l = false) →
      processBeast2 (pre ++ mid :: post) =
        (if post.countP distLine = 0 then 1 else 0, post.countP distLine)) ∧
    (∀ lines, (∀ l ∈ lines, likeLine l = false) → processBeast2 lines = (1, 0)) ∧
    processBeast2 [chars "<distribution id=\"likelihood\" spec=\"util.CompoundDistribution\">",
      chars "<distribution id=\"treeLikelihood.1\">",
      chars "<distribution id=\"treeLikelihood.2\">",
      chars "<distribution id=\"treeLikelihood.3\">",
      chars "<distribution id=\"prior\" spec=\"x\"/>"] = (0, 3) := by
  refine ⟨?_, ?_, rfl⟩
  · intro pre mid post hpre hmid hpost
    unfold processBeast2
    rw [List.foldl_append, beast2_foldl_pre pre 0 hpre, List.foldl_cons]
    have hstep : beast2Step ⟨false, 0⟩ mid = ⟨true, 0⟩ := by
      simp only [likeLine] at hmid
      simp [beast2Step, hmid]
    rw [hstep, beast2_foldl_post]
    have hcnt : post.countP (fun l => !likeLine l && distLine l) = post.countP distLine := by
      induction post with
      | nil => rfl
      | cons x rest ih =>
        rw [List.countP_cons, List.countP_cons,
          ih (fun a ha => hpost a (List.mem_cons_of_mem _ ha))]
        simp [hpost x (List.mem_cons_self x rest)]
    simp [hcnt]
  · intro lines hlines
    unfold processBeast2
    rw [beast2_foldl_pre lines 0 hlines]
    rfl

/-- Witness for C7 at a concrete file: one header line, the likelihood
marker, then a single opening distribution line. -/
theorem c7_witness :
    processBeast2 ([chars "<beast version=\"2.0\">"] ++
        (chars "<distribution id=\"likelihood\" spec=\"z\">") ::
          [chars "<distribution id=\"p1\">"]) =
      (if ([chars "<distribution id=\"p1\">"].countP distLine) = 0 then 1 else 0,
        [chars "<distribution id=\"p1\">"].countP distLine) :=
  c7_beast2_partitions.1 [chars "<beast version=\"2.0\">"] _ _
    (by decide) (by decide) (by decide)

theorem bayesFindCtl_append {pre : List Chars} {ctl : Chars} (post : List Chars)
    (hpre : ∀ l ∈ pre, isMcmcLine (pyStrip l) = false)
    (hctl : isMcmcLine (pyStrip ctl) = true) :
    bayesFindCtl (pre ++ ctl :: post) = some (pyStrip ctl) := by
  induction pre with
  | nil => simp [bayesFindCtl, hctl]
  | cons m rest ih =>
    have hm := hpre m (List.mem_cons_self m rest)
    simpa [bayesFindCtl, hm] using ih (fun x hx => hpre x (List.mem_cons_of_mem _ hx))

theorem bayesFindCtl_none {lines : List Chars}
    (h : ∀ l ∈ lines, isMcmcLine (pyStrip l) = false) :
    bayesFindCtl lines = none := by
  induction lines with
  | nil => rfl
  | cons m rest ih =>
    have hm := h m (List.mem_cons_self m rest)
    simpa [bayesFindCtl, hm] using ih (fun x hx => h x (List.mem_cons_of_mem _ hx))

/-- Claim C8.  process_bayes processes only the first line starting with
mcmc or mcmcp followed by whitespace: the result over any file equals the
result over that control line alone (everything after it is ignored), the
error flag is then 0, nruns comes from the nruns pattern on that line
(Python int default 2 when absent) and nchains from the nchains pattern
(default 4); with no control line both stay -1 with error flag 1; and the
fixture line `mcmc ngen=100` yields the defaults nruns=2, nchains=4. -/
theorem c8_bayes_control_line :
    (∀ pre ctl post, (∀ l ∈ pre, isMcmcLine (pyStrip l) = false) →
      isMcmcLine (pyStrip ctl) = true →
      processBayes (pre ++ ctl :: post) = processBayes [ctl]) ∧
    (∀ ctl, isMcmcLine (pyStrip ctl) = true →
      (processBayes [ctl]).errCode = 0 ∧
      (∀ ds, (keyEqNumMatches (chars "nruns") (pyStrip ctl)).getLast? = some ds →
        (processBayes [ctl]).nruns = PyVal.str ds) ∧
      ((keyEqNumMatches (chars "nruns") (pyStrip ctl)).getLast? = none →
        (processBayes [ctl]).nruns = PyVal.int 2) ∧
      (∀ ds, (keyEqNumMatches (chars "nchains") (pyStrip ctl)).getLast? = some ds →
        (processBayes [ctl]).nchains = PyVal.str ds) ∧
      ((keyEqNumMatches (chars "nchains") (pyStrip ctl)).getLast? = none →
        (processBayes [ctl]).nchains = PyVal.int 4)) ∧
    (∀ lines, (∀ l ∈ lines, isMcmcLine (pyStrip l) = false) →
      processBayes lines = ⟨1, PyVal.int (-1), PyVal.int (-1)⟩) ∧
    processBayes [chars "mcmc ngen=100"] = ⟨0, PyVal.int 2, PyVal.int 4⟩ := by
  refine ⟨?_, ?_, ?_, rfl⟩
  · intro pre ctl post hpre hctl
    have h1 : bayesFindCtl [ctl] = some (pyStrip ctl) := by simp [bayesFindCtl, hctl]
    unfold processBayes
    rw [bayesFindCtl_append post hpre hctl, h1]
  · intro ctl hctl
    have h1 : bayesFindCtl [ctl] = some (pyStrip ctl) := by simp [bayesFindCtl, hctl]
    refine ⟨?_, ?_, ?_, ?_, ?_⟩
    · unfold processBayes
      rw [h1]
      rcases hr : (keyEqNumMatches (chars "nruns") (pyStrip ctl)).getLast? with _ | ds <;>
        rcases hc : (keyEqNumMatches (chars "nchains") (pyStrip ctl)).getLast? with _ | es <;>
          simp [hr, hc, pyEqInt]
    · intro ds hds
      unfold processBayes
      rw [h1]
      simp [hds]
    · intro hds
      unfold processBayes
      rw [h1]
      simp [hds]
    · intro ds hds
      unfold processBayes
      rw [h1]
      simp [hds]
    · intro hds
      unfold processBayes
      rw [h1]
      simp [hds]
  · intro lines hlines
    unfold processBayes
    rw [bayesFindCtl_none hlines]

/-- Witness for C8: a NEXUS header, then a control line with an explicit
nruns, then a later ignored mcmc line. -/
theorem c8_witness :
    processBayes ([chars "#NEXUS"] ++ (chars "mcmcp nruns=3 ngen=50") ::
        [chars "mcmc ngen=9"]) =
      processBayes [chars "mcmcp nruns=3 ngen=50"] :=
  c8_bayes_control_line.1 [chars "#NEXUS"] _ _ (by decide) (by decide)

theorem beastCodon_counts (st : BeastState) (line : Chars) :
    ∃ st', beastCodon st line = Except.ok st' ∧
      st'.patternCount = st.patternCount ∧ st'.nuPartitions = st.nuPartitions := by
  unfold beastCodon
  cases h : containsSub (chars "codon") line
  · exact ⟨st, by simp [h], rfl, rfl⟩
  · exact ⟨{ st with codon := true }, by simp [h], rfl, rfl⟩

theorem beast_fold_counts (lines : List Chars) (st : BeastState)
    (h1 : ∀ l ∈ lines, beastDatatypeValue (pyRstrip l) = none)
    (h2 : ∀ l ∈ lines, (afterLastNpatterns (pyRstrip l)).isSome → (npatternsValue l).isSome) :
    ∃ st', List.foldlM beastStep st lines = Except.ok st' ∧
      st'.patternCount = st.patternCount + (lines.filterMap npatternsValue).sum ∧
      st'.nuPartitions = st.nuPartitions + (lines.filterMap npatternsValue).length := by
  induction lines generalizing st with
  | nil => exact ⟨st, rfl, by simp, by simp⟩
  | cons l rest ih =>
    have hl1 := h1 l (List.mem_cons_self l rest)
    rcases hnp : afterLastNpatterns (pyRstrip l) with _ | r
    · have hval : npatternsValue l = none := by simp [npatternsValue, hnp]
      have hstep : beastStep st l = beastCodon st (pyRstrip l) := by
        simp [beastStep, hl1, beastNpat, hnp]
      obtain ⟨stc, hc, hc1, hc2⟩ := beastCodon_counts st (pyRstrip l)
      obtain ⟨st', hrest, hp, hn⟩ := ih stc
        (fun x hx => h1 x (List.mem_cons_of_mem _ hx))
        (fun x hx hs => h2 x (List.mem_cons_of_mem _ hx) hs)
      refine ⟨st', ?_, ?_, ?_⟩
      · rw [List.foldlM_cons, hstep, hc]
        exact hrest
      · rw [hp, hc1]
        simp [List.filterMap_cons, hval]
      · rw [hn, hc2]
        simp [List.filterMap_cons, hval]
    · have hsome : (npatternsValue l).isSome := h2 l (List.mem_cons_self l rest) (by simp [hnp])
      have hne : (r.takeWhile Char.isDigit).isEmpty = false := by
        by_contra hcon
        rw [Bool.not_eq_false] at hcon
        simp [npatternsValue, hnp, hcon] at hsome
      have hval : npatternsValue l = some (charsToNat (r.takeWhile Char.isDigit)) := by
        simp [npatternsValue, hnp, hne]
      have hstep : beastStep st l = beastCodon
          { st with patternCount := st.patternCount + charsToNat (r.takeWhile Char.isDigit),
                    nuPartitions := st.nuPartitions + 1 } (r.takeWhile Char.isDigit) := by
        simp [beastStep, hl1, beastNpat, hnp, hne]
      obtain ⟨stc, hc, hc1, hc2⟩ := beastCodon_counts
        { st with patternCount := st.patternCount + charsToNat (r.takeWhile Char.isDigit),
                  nuPartitions := st.nuPartitions + 1 } (r.takeWhile Char.isDigit)
      obtain ⟨st', hrest, hp, hn⟩ := ih stc
        (fun x hx => h1 x (List.mem_cons_of_mem _ hx))
        (fun x hx hs => h2 x (List.mem_cons_of_mem _ hx) hs)
      refine ⟨st', ?_, ?_, ?_⟩
      · rw [List.foldlM_cons, hstep, hc]
        exact hrest
      · rw [hp, hc1]
        simp [List.filterMap_cons, hval]
        omega
      · rw [hn, hc2]
        simp [List.filterMap_cons, hval]
        omega

/-- Claim C6, counterexample.  The claim says every line matching
npatterns\s*=\s* adds its digits to the pattern count and bumps the
partition count.  On a line that also matches the alignment-dataType
pattern, the dataType branch rewrites the loop variable before the
npatterns check, so the (matching) line is not counted at all: a
one-line file whose line matches both patterns ends with partition
count 0 and pattern count 0. -/
theorem c6_counterexample :
    processBeast [chars "alignment dataType=\"nucleotide\" npatterns=10"] =
      Except.ok ⟨1, chars "nucleotide", false, 0, 0⟩ := rfl

/-- Claim C6, amended.  For lines that do not match the alignment-dataType
pattern (whose rewriting would otherwise shadow the npatterns check) and
whose matches carry at least one digit, each line matching
npatterns\s*=\s* adds its parsed digit value to the pattern count and
increments the partition count by one, both accumulating across the file;
in particular two npatterns lines with values 10 and 15 separated by a
non-matching line yield partition count 2 and pattern count 25. -/
theorem c6_amended_thm :
    (∀ lines, (∀ l ∈ lines, beastDatatypeValue (pyRstrip l) = none) →
      (∀ l ∈ lines, (afterLastNpatterns (pyRstrip l)).isSome → (npatternsValue l).isSome) →
      ∃ r, processBeast lines = Except.ok r ∧
        r.patternCount = (lines.filterMap npatternsValue).sum ∧
        r.nuPartitions = (lines.filterMap npatternsValue).length) ∧
    (∃ r, processBeast [chars "npatterns=10", chars "an intervening line",
        chars "npatterns = 15"] = Except.ok r ∧
      r.nuPartitions = 2 ∧ r.patternCount = 25) := by
  constructor
  · intro lines hA hB
    obtain ⟨st', hfold, hp, hn⟩ :=
      beast_fold_counts lines ⟨chars "unknown", false, 0, 0⟩ hA hB
    have hrun : processBeast lines = Except.ok
        ⟨if st'.nuPartitions = 0 ∨ st'.patternCount = 0 then 1
          else if st'.datatype ≠ chars "aminoacid" ∧ st'.datatype ≠ chars "nucleotide"
            then 1 else 0,
          st'.datatype, st'.codon, st'.nuPartitions, st'.patternCount⟩ := by
      unfold processBeast
      rw [hfold]
    exact ⟨_, hrun, by simpa using hp, by simpa using hn⟩
  · exact ⟨⟨1, chars "unknown", false, 2, 25⟩, rfl, rfl, rfl⟩

/-- Witness for the amended C6 theorem at a concrete one-line file. -/
theorem c6_amended_witness :
    ∃ r, processBeast [chars "npatterns=3"] = Except.ok r ∧
      r.patternCount = ([chars "npatterns=3"].filterMap npatternsValue).sum ∧
      r.nuPartitions = ([chars "npatterns=3"].filterMap npatternsValue).length :=
  c6_amended_thm.1 [chars "npatterns=3"] (by decide) (by decide)

theorem dictInsert_keys (k : ℚ) (v : String) (d : List (ℚ × String)) (a : ℚ) :
    a ∈ (dictInsert k v d).map Prod.fst ↔ a = k ∨ a ∈ d.map Prod.fst := by
  induction d with
  | nil => simp [dictInsert]
  | cons p rest ih =>
    obtain ⟨k', v'⟩ := p
    by_cases hk : k' = k
    · subst hk
      simp [dictInsert]
    · simp only [dictInsert, if_neg hk, List.map_cons, List.mem_cons, ih]
      tauto

theorem dictInsert_nodup (k : ℚ) (v : String) (d : List (ℚ × String))
    (h : (d.map Prod.fst).Nodup) : ((dictInsert k v d).map Prod.fst).Nodup := by
  induction d with
  | nil => simp [dictInsert]
  | cons p rest ih =>
    obtain ⟨k', v'⟩ := p
    rw [List.map_cons, List.nodup_cons] at h
    by_cases hk : k' = k
    · subst hk
      simpa [dictInsert, List.nodup_cons] using h
    · rw [show dictInsert k v ((k', v') :: rest) = (k', v') :: dictInsert k v rest by
        simp [dictInsert, hk]]
      rw [List.map_cons, List.nodup_cons]
      refine ⟨?_, ih h.2⟩
      intro hmem
      rcases (dictInsert_keys k v rest k').mp hmem with he | hin
      · exact hk he
      · exact h.1 hin

theorem dict_keys_lookup (d : List (ℚ × String)) (h : (d.map Prod.fst).Nodup) :
    (d.map Prod.fst).map (fun k => (k, dictLookup k d)) = d := by
  induction d with
  | nil => rfl
  | cons p rest ih =>
    obtain ⟨k0, v0⟩ := p
    rw [List.map_cons, List.nodup_cons] at h
    rw [List.map_cons, List.map_cons]
    have hcong : ∀ k ∈ rest.map Prod.fst,
        (k, dictLookup k ((k0, v0) :: rest)) = (k, dictLookup k rest) := by
      intro k hk
      have hne : ¬k0 = k := fun he => h.1 (he ▸ hk)
      simp [dictLookup, hne]
    rw [List.map_congr_left hcong, ih h.2]
    simp [dictLookup]

theorem insertDesc_perm (x : ℚ) (l : List ℚ) : List.Perm (insertDesc x l) (x :: l) := by
  induction l with
  | nil => exact List.Perm.refl _
  | cons y ys ih =>
    unfold insertDesc
    by_cases h : y < x
    · rw [if_pos h]
    · rw [if_neg h]
      exact (ih.cons y).trans (List.Perm.swap x y ys)

theorem sortDesc_perm (l : List ℚ) : List.Perm (sortDesc l) l := by
  induction l with
  | nil => exact List.Perm.refl _
  | cons x xs ih => exact (insertDesc_perm x (sortDesc xs)).trans (ih.cons x)

theorem insertDesc_sorted (x : ℚ) (l : List ℚ)
    (h : l.Pairwise (fun a b => b ≤ a)) :
    (insertDesc x l).Pairwise (fun a b => b ≤ a) := by
  induction l with
  | nil => simp [insertDesc]
  | cons y ys ih =>
    rw [List.pairwise_cons] at h
    unfold insertDesc
    by_cases hc : y < x
    · rw [if_pos hc]
      refine List.Pairwise.cons ?_ (List.Pairwise.cons h.1 h.2)
      intro b hb
      rcases List.mem_cons.mp hb with rfl | hb'
      · exact le_of_lt hc
      · exact le_trans (h.1 b hb') (le_of_lt hc)
    · rw [if_neg hc]
      refine List.Pairwise.cons ?_ (ih h.2)
      intro b hb
      rcases List.mem_cons.mp ((insertDesc_perm x ys).mem_iff.mp hb) with rfl | hb'
      · exact not_lt.mp hc
      · exact h.1 b hb'

theorem sortDesc_sorted (l : List ℚ) :
    (sortDesc l).Pairwise (fun a b => b ≤ a) := by
  induction l with
  | nil => simp [sortDesc]
  | cons x xs ih => exact insertDesc_sorted x (sortDesc xs) ih

theorem makeOutFile_perm (d : List (ℚ × String)) (h : (d.map Prod.fst).Nodup) :
    List.Perm (makeOutFile d) d := by
  unfold makeOutFile
  have h1 := (sortDesc_perm (d.map Prod.fst)).map (fun k => (k, dictLookup k d))
  rw [dict_keys_lookup d h] at h1
  exact h1

theorem makeOutFile_sorted (d : List (ℚ × String)) :
    (makeOutFile d).Pairwise (fun p q => q.1 ≤ p.1) := by
  unfold makeOutFile
  rw [List.pairwise_map]
  exact sortDesc_sorted _

theorem pgScan_fields {st : PGState} {lines : List Chars} {st' : PGState}
    (h : pgScan st lines = Except.ok st') :
    st'.errorCode = st.errorCode ∧ st'.problemFiles = st.problemFiles ∧
      st'.scoreDict = st.scoreDict := by
  unfold pgScan at h
  split at h
  · split at h
    · rw [Except.ok.injEq] at h
      subst h
      exact ⟨rfl, rfl, rfl⟩
    · split at h
      · rw [Except.ok.injEq] at h
        subst h
        exact ⟨rfl, rfl, rfl⟩
      · exact absurd h (by simp)
  · split at h
    · rw [Except.ok.injEq] at h
      subst h
      exact ⟨rfl, rfl, rfl⟩
    · split at h
      · rw [Except.ok.injEq] at h
        subst h
        exact ⟨rfl, rfl, rfl⟩
      · exact absurd h (by simp)

/-- The loop invariant of the post_garli main loop: the error flag is set
exactly when the problem list is nonempty, and the dict keys are distinct. -/
def pgInv (st : PGState) : Prop :=
  (st.errorCode = 1 ↔ st.problemFiles ≠ []) ∧ (st.scoreDict.map Prod.fst).Nodup

theorem pgFileStep_inv {st : PGState} {f : String × List Chars} {st' : PGState}
    (hinv : pgInv st) (h : pgFileStep st f = Except.ok st') : pgInv st' := by
  unfold pgFileStep at h
  rcases hsc : pgScan st f.2 with e | s
  · rw [hsc] at h
    exact absurd h (by simp)
  · rw [hsc] at h
    obtain ⟨he, hp, hd⟩ := pgScan_fields hsc
    have h2 : pgClassify f.1 s = Except.ok st' := h
    clear h
    unfold pgClassify at h2
    rcases hq : s.score with _ | q
    · rw [hq] at h2
      exact absurd h2 (by simp)
    · rw [hq] at h2
      have h3 : (if q = 0 then
            Except.ok { s with score := some q, errorCode := 1, problemFiles := s.problemFiles ++ [f.1] }
          else
            Except.ok { s with score := some q, scoreDict := dictInsert q f.1 s.scoreDict }) =
          Except.ok st' := h2
      clear h2
      split at h3
      · rw [Except.ok.injEq] at h3
        subst h3
        refine ⟨by simp, ?_⟩
        show (s.scoreDict.map Prod.fst).Nodup
        rw [hd]
        exact hinv.2
      · rw [Except.ok.injEq] at h3
        subst h3
        refine ⟨?_, ?_⟩
        · show s.errorCode = 1 ↔ s.problemFiles ≠ []
          rw [he, hp]
          exact hinv.1
        · show ((dictInsert q f.1 s.scoreDict).map Prod.fst).Nodup
          rw [hd]
          exact dictInsert_nodup q f.1 st.scoreDict hinv.2
  
theorem runPostGarli_inv {files : List (String × List Chars)} {st : PGState}
    (h : runPostGarli files = Except.ok st) : pgInv st := by
  have hgen : ∀ (fs : List (String × List Chars)) (s0 : PGState), pgInv s0 →
      List.foldlM pgFileStep s0 fs = Except.ok st → pgInv st := by
    intro fs
    induction fs with
    | nil =>
      intro s0 h0 hh
      rw [List.foldlM_nil] at hh
      have hh2 : Except.ok s0 = Except.ok st := hh
      rw [Except.ok.injEq] at hh2
      subst hh2
      exact h0
    | cons f rest ih =>
      intro s0 h0 hh
      rw [List.foldlM_cons] at hh
      rcases hstep : pgFileStep s0 f with e | s1
      · rw [hstep] at hh
        exact Except.noConfusion hh
      · rw [hstep] at hh
        exact ih s1 (pgFileStep_inv h0 hstep) hh
  exact hgen files pgInit ⟨by simp [pgInit], by simp [pgInit]⟩ h

/-- Claim C9.  For every run of the ranking tool that terminates normally:
the error flag is 1 exactly when some file was recorded as a problem (a
file is recorded there exactly when its score extracted as 0); if any
problem file exists no output is written; otherwise the report
garli_scores.txt contains exactly the stored (score, filename) entries,
one line per entry, sorted by score in descending order. -/
theorem c9_report_ordering (files : List (String × List Chars)) (st : PGState)
    (h : runPostGarli files = Except.ok st) :
    (st.errorCode = 1 ↔ st.problemFiles ≠ []) ∧
    (st.problemFiles ≠ [] → garliReport st = none) ∧
    (st.problemFiles = [] → ∃ out, garliReport st = some out ∧
      List.Perm out st.scoreDict ∧ out.Pairwise (fun p q => q.1 ≤ p.1)) := by
  obtain ⟨hiff, hnodup⟩ := runPostGarli_inv h
  refine ⟨hiff, ?_, ?_⟩
  · intro hp
    unfold garliReport
    rw [if_pos (hiff.mpr hp)]
  · intro hp
    have hne : st.errorCode ≠ 1 := fun hc => (hiff.mp hc) hp
    unfold garliReport
    rw [if_neg hne]
    exact ⟨makeOutFile st.scoreDict, rfl, makeOutFile_perm _ hnodup, makeOutFile_sorted _⟩

/-- Witness for C9: a concrete successful two-file run. -/
theorem c9_witness :
    (c9State.errorCode = 1 ↔ c9State.problemFiles ≠ []) ∧
    (c9State.problemFiles ≠ [] → garliReport c9State = none) ∧
    (c9State.problemFiles = [] → ∃ out, garliReport c9State = some out ∧
      List.Perm out c9State.scoreDict ∧ out.Pairwise (fun p q => q.1 ≤ p.1)) :=
  c9_report_ordering c9Files c9State rfl
